import Mathlib

/- Verification development for the hanluku system monitor's Sensor Resolution
and Health-Tracking Engine.

The Python source is shallowly embedded:
  - `core/sensor_mapping.py` (profiles, fuzzy scorer, tree search),
  - `core/sensor_cache.py` (load/migrate/validate of the persistent cache),
  - `core/hardware_manager.py` (`_create_hardware_fingerprint`),
  - `monitoring/sensor_manager.py` (`_safe_sensor_read`, `_track_sensor_health`,
    `get_sensor_health_report`).

Python floats are modelled as exact rationals (`ℚ`); every number the engine
compares (score thresholds 0.3/0.6, bonuses 0.1/1.2, backoff seconds,
timestamps) is small and the comparisons made here are exact in IEEE doubles as
well, so the rational model agrees with the float evaluation of the source on
every branch taken in this file.  Stateful code is modelled by explicit state
passing; file I/O and `json.loads` are abstracted into a `LoadInput` describing
the distinct situations the Python code dispatches on.  Recursions that in
Python run on the call stack (difflib's matching-block recursion, the
hardware-tree walk) take an explicit fuel argument bounding the recursion
depth; every actual run corresponds to a sufficiently large fuel, and the
universally quantified theorems below hold for every fuel value.  Rational
constants are written with `mkRat` so that concrete runs evaluate inside the
kernel. -/

/-- Python `str.lower()` on the character list of a string (ASCII case fold,
which covers every string this engine lowers). -/
def lowerStr (s : String) : String := ⟨s.toList.map Char.toLower⟩

/-- Python substring test `needle in hay` for strings: some tail of `hay`
starts with `needle` (true for the empty needle, as in Python). -/
def substrB (needle hay : String) : Bool :=
  hay.toList.tails.any (fun t => needle.toList.isPrefixOf t)

/- Model of difflib.SequenceMatcher, as used by `similarity_score` in
`core/sensor_mapping.py`, which computes
`SequenceMatcher(None, a.lower(), b.lower()).ratio()`.  For the short strings
involved the autojunk heuristic is inert (it needs `len(b) >= 200`), so the
documented semantics apply: `find_longest_match` returns the longest matching
block, and among equally long blocks the one starting earliest in `a`, then
earliest in `b`; `get_matching_blocks` recurses on the pieces left and right of
that block; `ratio` is `2*M/T` with `M` the total size of all matching blocks
and `T` the sum of both lengths (`1.0` when both strings are empty). -/

/-- Length of the longest common prefix of two character lists. -/
def commonPrefixLen : List Char → List Char → Nat
  | a :: as, b :: bs => if a = b then commonPrefixLen as bs + 1 else 0
  | _, _ => 0

/-- Size of the matching block starting at offsets `i` in `a` and `j` in `b`. -/
def extAt (a b : List Char) (i j : Nat) : Nat :=
  commonPrefixLen (a.drop i) (b.drop j)

/-- The longest matching block `(i, j, k)` of two character lists: `k` maximal,
ties broken by smallest `i`, then smallest `j`; `(0, 0, 0)` when nothing
matches (difflib `find_longest_match` on the full windows, no junk). -/
def bestMatch (a b : List Char) : Nat × Nat × Nat :=
  ((List.range a.length).flatMap (fun i =>
      (List.range b.length).map (fun j => (i, j, extAt a b i j)))).foldl
    (fun best c => if best.2.2 < c.2.2 then c else best) (0, 0, 0)

/-- Total matched characters over all matching blocks (difflib
`get_matching_blocks` recursion).  The fuel bounds the recursion depth; each
recursive call strictly shrinks the `a`-window, so `a.length + 1` always
suffices. -/
def mtAux : Nat → List Char → List Char → Nat
  | 0, _, _ => 0
  | fuel + 1, a, b =>
    let m := bestMatch a b
    let i := m.1
    let j := m.2.1
    let k := m.2.2
    if k = 0 then 0
    else mtAux fuel (a.take i) (b.take j) + k + mtAux fuel (a.drop (i + k)) (b.drop (j + k))

/-- Total size of all matching blocks between two character lists. -/
def totalMatches (a b : List Char) : Nat :=
  mtAux (a.length + 1) a b

/-- difflib `SequenceMatcher(None, a, b).ratio()`, as an exact rational. -/
def ratioQ (a b : String) : ℚ :=
  let la := a.toList
  let lb := b.toList
  if la.length + lb.length = 0 then 1
  else mkRat (2 * totalMatches la lb) (la.length + lb.length)

/-- Function `similarity_score` from `core/sensor_mapping.py`: the ratio of the
lower-cased strings. -/
def similarity_score (a b : String) : ℚ :=
  ratioQ (lowerStr a) (lowerStr b)

/- Data model of `core/sensor_mapping.py`. -/

/-- A sensor as seen by `find_sensor`: its display name, the string form of its
`SensorType`, and its identifier. -/
structure SensorNode where
  name : String
  sensorType : String
  ident : String
deriving DecidableEq, Repr

/-- One entry of `SENSOR_MAP`: the search profile of a logical metric. -/
structure Profile where
  search_terms : List String
  exclude_terms : List String
  priority_terms : List String
  sensor_type : String
deriving DecidableEq, Repr

/-- A scored match, as appended to `candidates` in `find_sensor`. -/
structure Candidate where
  sensor : SensorNode
  score : ℚ
  term : String
  is_priority : Bool
  name : String
deriving DecidableEq, Repr

/-- The `CPU_PACKAGE_TEMP` entry of `SENSOR_MAP`. -/
def CPU_PACKAGE_TEMP : Profile :=
  { search_terms :=
      ["package", "paket", "gehäuse", "cpu package", "core package",
       "tctl", "tdie", "core (tctl)", "core (tdie)", "core (tctl/tdie)",
       "cpu (tctl)", "cpu (tdie)", "amd cpu", "ryzen",
       "cpu temp", "cpu temperature", "processor", "prozessor",
       "core temp", "core temperature", "cpu die", "die temp"]
    exclude_terms :=
      ["core 0", "core 1", "core 2", "core 3", "core 4", "core 5", "core 6", "core 7"]
    priority_terms := ["package", "tctl", "tdie"]
    sensor_type := "Temperature" }

/-- The `STORAGE_TEMP` entry of `SENSOR_MAP` (no exclude or priority terms in
the source: `mapping.get` defaults them to `[]`). -/
def STORAGE_TEMP : Profile :=
  { search_terms := ["temperature", "temperatur", "temp"]
    exclude_terms := []
    priority_terms := []
    sensor_type := "Temperature" }

/- The scoring loop of `find_sensor` (`core/sensor_mapping.py`, lines
163-200). -/

/-- The body of the `for term in search_terms` loop in `find_sensor`, for one
term: the score this term earns against the (already lower-cased) sensor name,
and whether the priority flag fires.  A literal substring scores `1.0`
(`1.2` with priority); otherwise the similarity ratio is used as the score, and
only when the ratio exceeds `0.6` a priority term additionally gains `0.1`. -/
def termEval (priority_terms : List String) (sensor_name : String) (term : String) :
    ℚ × Bool :=
  let term_lower := lowerStr term
  if substrB term_lower sensor_name then
    if term ∈ priority_terms then (mkRat 6 5, true) else (1, false)
  else
    let score := similarity_score term_lower sensor_name
    if mkRat 3 5 < score then
      if term ∈ priority_terms then (score + mkRat 1 10, true) else (score, false)
    else (score, false)

/-- One iteration of the term loop on the running
`(best_score, matched_term, is_priority)` state: the best score and matched
term are replaced only on a strict improvement (`score > best_score` in the
source); the priority flag accumulates across all terms, exactly as the Python
loop mutates `is_priority` independently of the best-score update. -/
def termStep (priority_terms : List String) (sensor_name : String)
    (acc : ℚ × String × Bool) (term : String) : ℚ × String × Bool :=
  let ev := termEval priority_terms sensor_name term
  if acc.1 < ev.1 then (ev.1, term, acc.2.2 || ev.2)
  else (acc.1, acc.2.1, acc.2.2 || ev.2)

/-- The whole term loop: folds `termStep` over `search_terms` starting from
`(0.0, empty, false)`. -/
def termLoop (priority_terms : List String) (sensor_name : String)
    (terms : List String) : ℚ × String × Bool :=
  terms.foldl (termStep priority_terms sensor_name) (0, "", false)

/-- Scoring of a single sensor inside `search_recursively`: type filter,
exclusion veto, term loop, and the `best_score > 0.3` retention gate. -/
def scoreSensor (p : Profile) (s : SensorNode) : Option Candidate :=
  let sensor_name := lowerStr s.name
  let sensor_type := lowerStr s.sensorType
  if sensor_type ≠ lowerStr p.sensor_type then none
  else if p.exclude_terms.any (fun e => substrB (lowerStr e) sensor_name) then none
  else
    let r := termLoop p.priority_terms sensor_name p.search_terms
    if mkRat 3 10 < r.1 then
      some { sensor := s, score := r.1, term := r.2.1, is_priority := r.2.2, name := s.name }
    else none

/- Tree traversal of `find_sensor` and candidate ranking. -/

/-- A hardware node: name, sensors, and recursive sub-hardware. -/
inductive HNode where
  | mk (name : String) (sensors : List SensorNode) (children : List HNode)

/-- Sensors of a node. -/
def HNode.sensors : HNode → List SensorNode
  | .mk _ s _ => s

/-- Sub-hardware of a node. -/
def HNode.children : HNode → List HNode
  | .mk _ _ c => c

/-- The candidate collection of `search_recursively`: scores every sensor of
the current node (in order), then recurses into each sub-hardware node,
appending all candidates into one flat list.  The fuel bounds the recursion
depth (the Python code recurses on the call stack; any fuel larger than the
tree height reproduces it exactly). -/
def collectCandidates (p : Profile) : Nat → HNode → List Candidate
  | 0, _ => []
  | fuel + 1, h =>
    h.sensors.filterMap (scoreSensor p) ++
      h.children.flatMap (collectCandidates p fuel)

/-- The ranking key used by `candidates.sort(key=lambda x: (x['is_priority'],
x['score']), reverse=True)`. -/
def candKey (c : Candidate) : Bool × ℚ := (c.is_priority, c.score)

/-- Strict comparison of ranking keys: `x < y` in the lexicographic order on
`(is_priority, score)` with `false < true`. -/
def keyLTb (x y : Bool × ℚ) : Bool :=
  (!x.1 && y.1) || (x.1 == y.1 && decide (x.2 < y.2))

/-- One comparison step of the ranking: keep the current best candidate unless
a later candidate's key is strictly larger. -/
def pickStep (best d : Candidate) : Candidate :=
  if keyLTb (candKey best) (candKey d) then d else best

/-- The element `candidates[0]` after Python's stable descending sort: the
first candidate in encounter order whose key no later candidate strictly
exceeds.  Python's `list.sort` is stable and `reverse=True` preserves the
original order of equal keys, so the head of the sorted list is exactly the
first-seen candidate with maximal key; the fold keeps the current best and
replaces it only when a later candidate's key is strictly larger. -/
def pickBest (cs : List Candidate) : Option Candidate :=
  match cs with
  | [] => none
  | c :: rest => some (rest.foldl pickStep c)

/-- Function `find_sensor` for a resolved profile: collect candidates over the
tree, return `None` if there are none, else the sensor of the best-ranked
candidate. -/
def findSensor (p : Profile) (fuel : Nat) (root : HNode) : Option SensorNode :=
  (pickBest (collectCandidates p fuel root)).map (fun c => c.sensor)

/- Model of `core/sensor_cache.py`: the persistent sensor cache. -/

/-- A JSON value as far as the cache code inspects one: strings and numbers
are matched on (`isinstance(value, str)`, version comparison, timestamps);
everything else is only ever passed through or rejected, and is collapsed into
the remaining constructors. -/
inductive JValue where
  | str (s : String)
  | num (q : ℚ)
  | jbool (b : Bool)
  | jnull
  | compound
deriving DecidableEq, Repr

/-- A parsed JSON object: the key/value pairs in insertion order, unique keys
(as produced by Python's `json.loads`). -/
abbrev JObj := List (String × JValue)

/-- Python `dict.get(k)`. -/
def dget (d : JObj) (k : String) : Option JValue :=
  (d.find? (fun kv => kv.1 == k)).map (fun kv => kv.2)

/-- Python `dict.get(k, default)`. -/
def dgetD (d : JObj) (k : String) (v : JValue) : JValue :=
  (dget d k).getD v

/-- Python `d[k] = v`: replace in place if the key exists, else append. -/
def dinsert (d : JObj) (k : String) (v : JValue) : JObj :=
  if d.any (fun kv => kv.1 == k) then
    d.map (fun kv => if kv.1 == k then (k, v) else kv)
  else d ++ [(k, v)]

/-- Python `key.startswith(chr(95))`, the metadata-key test. -/
def startsWithUnderscore (k : String) : Bool :=
  "_".toList.isPrefixOf k.toList

/-- Constant `CACHE_VERSION` from `core/sensor_cache.py`. -/
def CACHE_VERSION : String := "2.0"

/-- Function `_create_empty_cache`: a fresh cache holding only metadata, in the
insertion order of the source's dict literal.  The two `time.time()` calls are
modelled by the single instant `now`. -/
def createEmptyCache (now : ℚ) : JObj :=
  [("_cache_version", .str CACHE_VERSION),
   ("_created_timestamp", .num now),
   ("_last_updated", .num now),
   ("_sensor_count", .num 0)]

/-- Function `_migrate_cache`: copy the non-metadata entries in order, then
stamp version, timestamps, `_sensor_count` (`len(migrated_cache) - 3`, counted
before `_sensor_count` itself is added) and `_migrated_from`. -/
def migrateCache (old : JObj) (old_version : JValue) (now : ℚ) : JObj :=
  let base := old.foldl
    (fun acc kv => if startsWithUnderscore kv.1 then acc else dinsert acc kv.1 kv.2) []
  let m1 := dinsert base "_cache_version" (.str CACHE_VERSION)
  let m2 := dinsert m1 "_created_timestamp" (dgetD old "_created_timestamp" (.num now))
  let m3 := dinsert m2 "_last_updated" (.num now)
  let m4 := dinsert m3 "_sensor_count" (.num (((m3.length : Int) - 3 : Int) : ℚ))
  dinsert m4 "_migrated_from" old_version

/-- Function `_validate_cache_structure`: the three required metadata keys must
be present, and every non-metadata entry must be a string of length at least 5
(`if not value or len(value) < 5` rejects shorter ones; the `_sensor_count`
comparison further down only logs and never fails validation). -/
def validateCacheStructure (c : JObj) : Bool :=
  (["_cache_version", "_created_timestamp", "_last_updated"].all
      (fun k => (dget c k).isSome)) &&
  ((c.filter (fun kv => !(startsWithUnderscore kv.1))).all
      (fun kv =>
        match kv.2 with
        | .str v => decide (5 ≤ v.toList.length)
        | _ => false))

/-- The outcomes of opening, reading and JSON-parsing the cache file that
`load_sensor_cache` distinguishes: file absent; file whose stripped content is
empty; content that fails to parse (`json.JSONDecodeError`); parsed JSON that
is not an object; a parsed JSON object. -/
inductive LoadInput where
  | missing
  | empty
  | parseError
  | nonObject
  | object (entries : JObj)
deriving DecidableEq, Repr

/-- The backup file name used by `_backup_corrupted_cache`:
`sensor_cache_corrupted_{int(time.time())}.json.bak` (timestamps are
nonnegative, so `int` truncation is the floor). -/
def backupName (now : ℚ) : String :=
  "sensor_cache_corrupted_" ++ toString ⌊now⌋ ++ ".json.bak"

/-- The observable result of `load_sensor_cache`: the returned cache and the
backup file created by `_backup_corrupted_cache`, if any. -/
structure LoadResult where
  cache : JObj
  backup : Option String
deriving DecidableEq, Repr

/-- Function `load_sensor_cache`: missing, empty, non-object and unparsable
content all fall back to a fresh empty cache (the function never raises); only
the parse-failure path first backs up the corrupt file.  A parsed object is
migrated when its `_cache_version` (default `"1.0"`) differs from
`CACHE_VERSION`, then validated; failed validation also falls back to a fresh
empty cache.  All `time.time()` calls are modelled by the instant `now`. -/
def loadSensorCache (input : LoadInput) (now : ℚ) : LoadResult :=
  match input with
  | .missing => ⟨createEmptyCache now, none⟩
  | .empty => ⟨createEmptyCache now, none⟩
  | .parseError => ⟨createEmptyCache now, some (backupName now)⟩
  | .nonObject => ⟨createEmptyCache now, none⟩
  | .object entries =>
    let cache_version := dgetD entries "_cache_version" (.str "1.0")
    let cache :=
      if cache_version ≠ .str CACHE_VERSION then migrateCache entries cache_version now
      else entries
    if validateCacheStructure cache then ⟨cache, none⟩
    else ⟨createEmptyCache now, none⟩

/- Model of the sensor health tracker (`monitoring/sensor_manager.py`). -/

/-- One `_sensor_health` record. -/
structure Health where
  consecutive_failures : Nat
  backoff_level : Nat
  disabled_until : Option ℚ
deriving DecidableEq, Repr

/-- The record `_track_sensor_health` creates on first contact. -/
def initialHealth : Health := ⟨0, 0, none⟩

/-- Constant `_max_consecutive_failures`. -/
def MAX_CONSECUTIVE_FAILURES : Nat := 3

/-- Constant `initial_backoff_sec` (seconds). -/
def INITIAL_BACKOFF_SEC : Nat := 15

/-- Constant `max_backoff_sec` (seconds). -/
def MAX_BACKOFF_SEC : Nat := 300

/-- The cooldown `delay = min(self.max_backoff_sec, self.initial_backoff_sec *
(2 ** backoff_level))`, an integer number of seconds in the source. -/
def backoffDelay (level : Nat) : Nat :=
  min MAX_BACKOFF_SEC (INITIAL_BACKOFF_SEC * 2 ^ level)

/-- Function `_track_sensor_health` acting on one health record: success resets
everything; failure increments the consecutive counter and, when it reaches
`MAX_CONSECUTIVE_FAILURES`, resets the counter, stamps
`disabled_until = now + delay` and increments the backoff level. -/
def trackSensorHealth (h : Health) (success : Bool) (now : ℚ) : Health :=
  if success then ⟨0, 0, none⟩
  else
    let cf := h.consecutive_failures + 1
    if MAX_CONSECUTIVE_FAILURES ≤ cf then
      ⟨0, h.backoff_level + 1, some (now + (backoffDelay h.backoff_level : ℚ))⟩
    else ⟨cf, h.backoff_level, h.disabled_until⟩

/- Model of `SensorManager._safe_sensor_read` and the read counters. -/

/-- What happens when the underlying sensor object is actually touched:
`value v` (a readable numeric value), `absent` (`hasattr` fails or `Value` is
`None`), or `error` (the read or the float coercion raises). -/
inductive ReadOutcome where
  | value (v : ℚ)
  | absent
  | error
deriving DecidableEq, Repr

/-- Whether an outcome delivers a usable value (`float(sensor.Value)`
succeeds). -/
def isValue : ReadOutcome → Bool
  | .value _ => true
  | _ => false

/-- The mutable state of a `SensorManager` that `_safe_sensor_read` touches:
the per-key health map and the three counters. -/
structure MState where
  health : List (String × Health)
  read_count : Nat
  successful : Nat
  failed : Nat
deriving DecidableEq, Repr

/-- A fresh `SensorManager` state. -/
def initialMState : MState := ⟨[], 0, 0, 0⟩

/-- `self._sensor_health.get(sensor_key)`. -/
def hget (m : List (String × Health)) (k : String) : Option Health :=
  (m.find? (fun kv => kv.1 == k)).map (fun kv => kv.2)

/-- `self._sensor_health[sensor_key] = h` (replace in place or append). -/
def hset (m : List (String × Health)) (k : String) (h : Health) :
    List (String × Health) :=
  if m.any (fun kv => kv.1 == k) then
    m.map (fun kv => if kv.1 == k then (k, h) else kv)
  else m ++ [(k, h)]

/-- The skip test of `_safe_sensor_read`: a health record exists, its
`disabled_until` is truthy (a Python float is falsy when zero), and
`time.time() < disabled_until`. -/
def isSkipped (hm : List (String × Health)) (key : String) (now : ℚ) : Bool :=
  match hget hm key with
  | some h =>
    match h.disabled_until with
    | some d => !(d == 0) && decide (now < d)
    | none => false
  | none => false

/-- One `_track_sensor_health(key, success)` call on the state: look up or
create the record, update it. -/
def trackKey (st : MState) (key : String) (success : Bool) (now : ℚ) : MState :=
  let h0 := (hget st.health key).getD initialHealth
  { st with health := hset st.health key (trackSensorHealth h0 success now) }

/-- The observable result of one `_safe_sensor_read` call: the returned value,
the state afterwards, and whether the underlying sensor object was touched
(the skip path returns before `hasattr(sensor, ...)` runs). -/
structure ReadResult where
  value : Option ℚ
  state : MState
  accessed : Bool
deriving DecidableEq, Repr

/-- Function `_safe_sensor_read`: always bump `_sensor_read_count`; skip
entirely while the cooldown is active; otherwise touch the sensor and track
the outcome, bumping `_successful_reads` only for a read value and
`_failed_reads` only for a raised exception (an absent value is tracked as a
failure but not counted). -/
def safeSensorRead (st0 : MState) (key : String) (outcome : ReadOutcome) (now : ℚ) :
    ReadResult :=
  let st := { st0 with read_count := st0.read_count + 1 }
  if isSkipped st.health key now then ⟨none, st, false⟩
  else
    match outcome with
    | .absent => ⟨none, trackKey st key false now, true⟩
    | .value v =>
      let st1 := trackKey st key true now
      ⟨some v, { st1 with successful := st1.successful + 1 }, true⟩
    | .error =>
      let st1 := trackKey st key false now
      ⟨none, { st1 with failed := st1.failed + 1 }, true⟩

/-- One read request: the health key used by the caller, what the sensor would
deliver if touched, and the time of the call. -/
structure ReadEvent where
  key : String
  outcome : ReadOutcome
  now : ℚ
deriving DecidableEq, Repr

/-- A sequence of `_safe_sensor_read` calls, threading the state. -/
def runReads (st : MState) : List ReadEvent → MState
  | [] => st
  | e :: es => runReads (safeSensorRead st e.key e.outcome e.now).state es

/-- The number of calls in a run that are skipped or see an absent value: the
calls that bump `_sensor_read_count` but neither `_successful_reads` nor
`_failed_reads`. -/
def uncountedCalls (st : MState) : List ReadEvent → Nat
  | [] => 0
  | e :: es =>
    (if isSkipped st.health e.key e.now || (e.outcome == .absent) then 1 else 0) +
      uncountedCalls (safeSensorRead st e.key e.outcome e.now).state es

/-- The fields of `get_sensor_health_report` about the counters. -/
structure HealthReport where
  sensor_read_attempts : Nat
  successful_reads : Nat
  failed_reads : Nat
  success_rate_percent : ℚ
deriving DecidableEq, Repr

/-- Function `get_sensor_health_report`, restricted to the counter fields: the
success rate divides by `_sensor_read_count` (not by successes plus failures)
and is `100` when nothing was read yet. -/
def getSensorHealthReport (st : MState) : HealthReport :=
  { sensor_read_attempts := st.read_count
    successful_reads := st.successful
    failed_reads := st.failed
    success_rate_percent :=
      if 0 < st.read_count then (st.successful : ℚ) / st.read_count * 100 else 100 }

/- Model of `HardwareManager._create_hardware_fingerprint`
(`core/hardware_manager.py`, lines 97-106). -/

/-- A top-level hardware node as the fingerprint sees it. -/
structure TopHardware where
  hardwareType : String
  name : String
  ident : String
deriving DecidableEq, Repr

/-- The fragment `"{hw.HardwareType}:{hw.Name}:{hw.Identifier}"`. -/
def fingerprintPart (hw : TopHardware) : String :=
  hw.hardwareType ++ ":" ++ hw.name ++ ":" ++ hw.ident

/-- Code-point lexicographic comparison of character lists, the order Python's
`sorted` uses on strings. -/
def lexLeB : List Char → List Char → Bool
  | [], _ => true
  | _ :: _, [] => false
  | x :: xs, y :: ys =>
    if x.toNat < y.toNat then true
    else if y.toNat < x.toNat then false
    else lexLeB xs ys

/-- Lexicographic comparison of strings by code point. -/
def strLeB (a b : String) : Bool := lexLeB a.toList b.toList

/-- Insertion into a sorted list of strings. -/
def insertSorted (s : String) : List String → List String
  | [] => [s]
  | t :: ts => if strLeB s t then s :: t :: ts else t :: insertSorted s ts

/-- Python `sorted` on a list of strings (insertion sort; `sorted` is
deterministic and this produces the identical, unique sorted arrangement). -/
def sortStrings : List String → List String
  | [] => []
  | s :: ss => insertSorted s (sortStrings ss)

/-- Function `_create_hardware_fingerprint`:
`"|".join(sorted(fingerprint_parts))`. -/
def createHardwareFingerprint (hws : List TopHardware) : String :=
  String.intercalate "|" (sortStrings (hws.map fingerprintPart))

/- Theorems.  Each claim of the specification gets one theorem below, with its
witness or counterexample where required. -/

/-- C3: for a continuously failing sensor key, each time the consecutive
failure count reaches 3 the tracker resets the counter to 0, computes
`delay = min(300, 15 * 2^backoff_level)` seconds, stamps
`disabled_until = now + delay` and increments the backoff level; the delay
sequence is 15, 30, 60, 120, 240, 300, 300, ... — non-decreasing and never
above 300 seconds — and a single successful read resets the backoff level (and
the whole record) to its initial state. -/
theorem c3_backoff_monotone_capped :
    (∀ (h : Health) (now : ℚ), h.consecutive_failures = 2 →
        trackSensorHealth h false now =
          ⟨0, h.backoff_level + 1, some (now + (backoffDelay h.backoff_level : ℚ))⟩) ∧
    (∀ n, backoffDelay n ≤ backoffDelay (n + 1)) ∧
    (∀ n, backoffDelay n ≤ 300) ∧
    [backoffDelay 0, backoffDelay 1, backoffDelay 2, backoffDelay 3, backoffDelay 4,
        backoffDelay 5, backoffDelay 6] = [15, 30, 60, 120, 240, 300, 300] ∧
    (∀ n, 5 ≤ n → backoffDelay n = 300) ∧
    (∀ (h : Health) (now : ℚ), trackSensorHealth h true now = ⟨0, 0, none⟩) := by
  refine ⟨?_, ?_, ?_, by decide, ?_, ?_⟩
  · intro h now hcf
    simp [trackSensorHealth, hcf, MAX_CONSECUTIVE_FAILURES]
  · intro n
    unfold backoffDelay
    exact min_le_min (Nat.le_refl _)
      (Nat.mul_le_mul_left _ (Nat.pow_le_pow_right (by norm_num) (Nat.le_succ n)))
  · intro n
    exact Nat.min_le_left _ _
  · intro n hn
    unfold backoffDelay
    have h32 : 2 ^ 5 ≤ 2 ^ n := Nat.pow_le_pow_right (by norm_num) hn
    have h300 : 300 ≤ 15 * 2 ^ n := by
      calc 300 ≤ 15 * 2 ^ 5 := by norm_num
        _ ≤ 15 * 2 ^ n := Nat.mul_le_mul_left _ h32
    have : MAX_BACKOFF_SEC = 300 := rfl
    have : INITIAL_BACKOFF_SEC = 15 := rfl
    simp only [MAX_BACKOFF_SEC, INITIAL_BACKOFF_SEC]
    omega
  · intro h now
    rfl

/-- Witness for C3 at a concrete record: a third consecutive failure at
backoff level 3 and time 7 disables until `7 + backoffDelay 3`, and from
level 5 on the delay is pinned at 300 seconds. -/
theorem c3_backoff_monotone_capped_witness :
    trackSensorHealth ⟨2, 3, none⟩ false 7 =
        ⟨0, 4, some ((7 : ℚ) + (backoffDelay 3 : ℚ))⟩ ∧
    backoffDelay 6 = 300 :=
  ⟨c3_backoff_monotone_capped.1 ⟨2, 3, none⟩ 7 rfl,
   c3_backoff_monotone_capped.2.2.2.2.1 6 (by norm_num)⟩

/-- C4: while a key's health record carries a truthy `disabled_until` in the
future, `_safe_sensor_read` skips the read: it returns no value, does not
touch the underlying sensor, and leaves the whole health map (in particular
`consecutive_failures`, `backoff_level`, `disabled_until` of that key) and the
success/failure counters unchanged, only bumping the attempt counter; as soon
as `now` is at or past `disabled_until` the read is attempted again (the
sensor is touched).  `d ≠ 0` reflects Python's truthiness test on the stored
float, and every `disabled_until` the tracker ever writes is a positive
timestamp. -/
theorem c4_disabled_window :
    ∀ (st : MState) (key : String) (outcome : ReadOutcome) (now d : ℚ) (hl : Health),
      hget st.health key = some hl →
      hl.disabled_until = some d →
      d ≠ 0 →
      ((now < d →
          safeSensorRead st key outcome now =
            ⟨none, { st with read_count := st.read_count + 1 }, false⟩) ∧
        (¬ now < d → (safeSensorRead st key outcome now).accessed = true)) := by
  intro st key outcome now d hl hg hd hd0
  have hs : isSkipped st.health key now = decide (now < d) := by
    simp [isSkipped, hg, hd, hd0]
  constructor
  · intro hlt
    simp [safeSensorRead, hs, hlt]
  · intro hge
    simp only [safeSensorRead, hs]
    rw [decide_eq_false hge]
    cases outcome <;> rfl

/-- Witness for C4: with key `x` disabled until time 15, a read at time 5 is
skipped (no value, sensor untouched, health unchanged, only the attempt
counter moves) and a read at time 20 touches the sensor again. -/
theorem c4_disabled_window_witness :
    safeSensorRead ⟨[("x", ⟨0, 1, some 15⟩)], 0, 0, 0⟩ "x" .absent 5 =
        ⟨none, ⟨[("x", ⟨0, 1, some 15⟩)], 1, 0, 0⟩, false⟩ ∧
    (safeSensorRead ⟨[("x", ⟨0, 1, some 15⟩)], 0, 0, 0⟩ "x" .absent 20).accessed = true :=
  ⟨(c4_disabled_window ⟨[("x", ⟨0, 1, some 15⟩)], 0, 0, 0⟩ "x" .absent 5 15
        ⟨0, 1, some 15⟩ rfl rfl (by norm_num)).1 (by norm_num),
   (c4_disabled_window ⟨[("x", ⟨0, 1, some 15⟩)], 0, 0, 0⟩ "x" .absent 20 15
        ⟨0, 1, some 15⟩ rfl rfl (by norm_num)).2 (by norm_num)⟩

/-- C9: `load_sensor_cache` never raises — every distinguished input maps to a
defined result.  On a missing file, an empty file, non-object JSON and a parse
failure it returns the freshly created empty cache whose keys are all metadata
keys; only the parse-failure path additionally backs the corrupt file up, under
the timestamped name `sensor_cache_corrupted_<unixtime>.json.bak`. -/
theorem c9_load_recovery :
    ∀ now : ℚ,
      loadSensorCache .missing now = ⟨createEmptyCache now, none⟩ ∧
      loadSensorCache .empty now = ⟨createEmptyCache now, none⟩ ∧
      loadSensorCache .nonObject now = ⟨createEmptyCache now, none⟩ ∧
      loadSensorCache .parseError now = ⟨createEmptyCache now, some (backupName now)⟩ ∧
      (createEmptyCache now).all (fun kv => startsWithUnderscore kv.1) = true ∧
      backupName now = "sensor_cache_corrupted_" ++ toString ⌊now⌋ ++ ".json.bak" :=
  fun _ => ⟨rfl, rfl, rfl, rfl, rfl, rfl⟩

/-- Counterexample to C2 as stated: loading the object parsed from
`("_cache_version": "1.0", "foo": "bar")` does NOT preserve `foo`.  The
migration itself copies `foo -> "bar"` and stamps `_migrated_from`, but
`_validate_cache_structure` rejects the migrated cache because the value
`"bar"` is shorter than 5 characters, so `load` falls back to a fresh empty
cache containing neither `foo` nor `_migrated_from`. -/
theorem c2_counterexample :
    loadSensorCache (.object [("_cache_version", .str "1.0"), ("foo", .str "bar")]) 1000 =
        ⟨createEmptyCache 1000, none⟩ ∧
    dget (loadSensorCache
        (.object [("_cache_version", .str "1.0"), ("foo", .str "bar")]) 1000).cache
      "foo" = none ∧
    dget (loadSensorCache
        (.object [("_cache_version", .str "1.0"), ("foo", .str "bar")]) 1000).cache
      "_migrated_from" = none :=
  ⟨rfl, rfl, rfl⟩

/-- C2 amended: the migration scenario holds once the entry value passes the
validator's minimum length of 5, e.g. with `foo -> "barbar"`: `load` then
returns the migrated cache with `_cache_version "2.0"`, `foo` preserved and
`_migrated_from "1.0"`, and no backup is made. -/
theorem c2_amended :
    ∀ now : ℚ,
      (loadSensorCache
          (.object [("_cache_version", .str "1.0"), ("foo", .str "barbar")]) now).backup =
        none ∧
      dget (loadSensorCache
          (.object [("_cache_version", .str "1.0"), ("foo", .str "barbar")]) now).cache
        "_cache_version" = some (.str "2.0") ∧
      dget (loadSensorCache
          (.object [("_cache_version", .str "1.0"), ("foo", .str "barbar")]) now).cache
        "foo" = some (.str "barbar") ∧
      dget (loadSensorCache
          (.object [("_cache_version", .str "1.0"), ("foo", .str "barbar")]) now).cache
        "_migrated_from" = some (.str "1.0") :=
  fun _ => ⟨rfl, rfl, rfl, rfl⟩

/-- Inversion of `scoreSensor`: a retained candidate records the scored sensor
itself, passed the case-insensitive kind filter, passed the exclusion veto,
carries the term-loop results, and scored strictly above `0.3`. -/
theorem scoreSensor_inv {p : Profile} {s : SensorNode} {c : Candidate}
    (h : scoreSensor p s = some c) :
    c.sensor = s ∧
    lowerStr s.sensorType = lowerStr p.sensor_type ∧
    p.exclude_terms.any (fun e => substrB (lowerStr e) (lowerStr s.name)) = false ∧
    c.score = (termLoop p.priority_terms (lowerStr s.name) p.search_terms).1 ∧
    mkRat 3 10 < c.score := by
  simp only [scoreSensor] at h
  split at h
  · exact absurd h (by simp)
  · split at h
    · exact absurd h (by simp)
    · split at h
      · next hty hex hlt =>
        cases h
        refine ⟨rfl, by simpa using hty, by simpa using hex, rfl, hlt⟩
      · exact absurd h (by simp)

/-- Every candidate collected anywhere in the tree walk was produced by
`scoreSensor` on its own sensor. -/
theorem mem_collect_scored {p : Profile} :
    ∀ (fuel : Nat) (h : HNode) (c : Candidate),
      c ∈ collectCandidates p fuel h → scoreSensor p c.sensor = some c := by
  intro fuel
  induction fuel with
  | zero => intro h c hc; simp [collectCandidates] at hc
  | succ n ih =>
    intro h c hc
    simp only [collectCandidates, List.mem_append, List.mem_filterMap,
      List.mem_flatMap] at hc
    rcases hc with ⟨s, _, hsc⟩ | ⟨child, _, hcc⟩
    · have hcs := (scoreSensor_inv hsc).1
      rw [hcs]
      exact hsc
    · exact ih child c hcc

/-- C6: the exclusion veto.  A sensor whose lower-cased name contains any
exclusion fragment is never turned into a candidate by the scorer, hence never
appears among the candidates of a whole tree walk, no matter how well its name
matches the search terms; in particular the `CPU_PACKAGE_TEMP` profile (whose
search terms include `package` and whose exclusion list contains `core 0`)
yields nothing for a Temperature sensor named `Core 0`. -/
theorem c6_exclusion_veto :
    (∀ (p : Profile) (s : SensorNode),
        p.exclude_terms.any (fun e => substrB (lowerStr e) (lowerStr s.name)) = true →
        scoreSensor p s = none) ∧
    (∀ (p : Profile) (fuel : Nat) (h : HNode) (c : Candidate),
        c ∈ collectCandidates p fuel h →
        p.exclude_terms.any (fun e => substrB (lowerStr e) (lowerStr c.sensor.name)) =
          false) ∧
    scoreSensor CPU_PACKAGE_TEMP ⟨"Core 0", "Temperature", "cpu0"⟩ = none := by
  refine ⟨?_, ?_, by decide⟩
  · intro p s hex
    simp [scoreSensor, hex]
  · intro p fuel h c hc
    exact (scoreSensor_inv (mem_collect_scored fuel h c hc)).2.2.1

set_option maxRecDepth 10000 in
/-- Witness for C6 at a concrete input: a profile excluding `mem` vetoes the
sensor named `GPU Mem Temp` both at the scorer and anywhere in a tree. -/
theorem c6_exclusion_veto_witness :
    scoreSensor ⟨["mem temp"], ["mem"], [], "Temperature"⟩
        ⟨"GPU Mem Temp", "Temperature", "g0"⟩ = none ∧
    (⟨["gpu core"], ["junction"], [], "Temperature"⟩ : Profile).exclude_terms.any
        (fun e => substrB (lowerStr e)
          (lowerStr (Candidate.sensor ⟨⟨"GPU Core", "Temperature", "g1"⟩, 1, "gpu core",
            false, "GPU Core"⟩).name)) = false :=
  ⟨c6_exclusion_veto.1 ⟨["mem temp"], ["mem"], [], "Temperature"⟩
      ⟨"GPU Mem Temp", "Temperature", "g0"⟩ (by decide),
   c6_exclusion_veto.2.1 ⟨["gpu core"], ["junction"], [], "Temperature"⟩ 1
      (.mk "root" [⟨"GPU Core", "Temperature", "g1"⟩] [])
      ⟨⟨"GPU Core", "Temperature", "g1"⟩, 1, "gpu core", false, "GPU Core"⟩ (by decide)⟩

/-- C7: the kind filter and the retention threshold.  Every candidate the
scorer retains comes from a sensor whose kind equals the profile's sensor kind
case-insensitively and scores strictly above `0.3`; a sensor of a different
kind is never scored, even on a perfect name match; and the same two facts
hold for every candidate collected during a whole tree walk. -/
theorem c7_kind_filter_threshold :
    (∀ (p : Profile) (s : SensorNode) (c : Candidate),
        scoreSensor p s = some c →
        lowerStr s.sensorType = lowerStr p.sensor_type ∧ mkRat 3 10 < c.score) ∧
    (∀ (p : Profile) (s : SensorNode),
        lowerStr s.sensorType ≠ lowerStr p.sensor_type → scoreSensor p s = none) ∧
    (∀ (p : Profile) (fuel : Nat) (h : HNode) (c : Candidate),
        c ∈ collectCandidates p fuel h →
        lowerStr c.sensor.sensorType = lowerStr p.sensor_type ∧
          mkRat 3 10 < c.score) := by
  refine ⟨?_, ?_, ?_⟩
  · intro p s c h
    obtain ⟨-, hty, -, -, hgt⟩ := scoreSensor_inv h
    exact ⟨hty, hgt⟩
  · intro p s hne
    simp only [scoreSensor]
    rw [if_pos hne]
  · intro p fuel h c hc
    have hs := mem_collect_scored fuel h c hc
    obtain ⟨-, hty, -, -, hgt⟩ := scoreSensor_inv hs
    exact ⟨hty, hgt⟩

set_option maxRecDepth 10000 in
/-- Witness for C7 at concrete inputs: the Scenario A profile retains the
`CPU Package` Temperature sensor (kind matches, score 1.2 above 0.3), and the
same profile rejects a Clock sensor even with the perfectly matching name
`package`. -/
theorem c7_kind_filter_threshold_witness :
    (lowerStr (SensorNode.sensorType ⟨"CPU Package", "Temperature", "i"⟩) =
        lowerStr (Profile.sensor_type ⟨["package", "tctl"], ["core 0"], ["package"],
          "Temperature"⟩) ∧
      mkRat 3 10 <
        Candidate.score ⟨⟨"CPU Package", "Temperature", "i"⟩, mkRat 6 5, "package", true,
          "CPU Package"⟩) ∧
    scoreSensor ⟨["package", "tctl"], ["core 0"], ["package"], "Temperature"⟩
        ⟨"package", "Clock", "i"⟩ = none :=
  ⟨c7_kind_filter_threshold.1
      ⟨["package", "tctl"], ["core 0"], ["package"], "Temperature"⟩
      ⟨"CPU Package", "Temperature", "i"⟩
      ⟨⟨"CPU Package", "Temperature", "i"⟩, mkRat 6 5, "package", true, "CPU Package"⟩
      (by decide),
   c7_kind_filter_threshold.2.1
      ⟨["package", "tctl"], ["core 0"], ["package"], "Temperature"⟩
      ⟨"package", "Clock", "i"⟩ (by decide)⟩

set_option maxRecDepth 10000 in
/-- Counterexample to C1 as stated: with the compiled-in `STORAGE_TEMP`
profile and a Temperature sensor named `tpx`, the term `temp` is not a
substring of the sensor name and its similarity ratio is 4/7, which is at most
0.6 — yet the scorer retains a candidate, matched by exactly that term with
exactly that ratio as its score.  In the source the `> 0.6` comparison only
gates the priority bonus; it does not discard low-ratio fuzzy matches, which
survive whenever the best score exceeds 0.3. -/
theorem c1_counterexample :
    substrB (lowerStr "temp") (lowerStr "tpx") = false ∧
    similarity_score (lowerStr "temp") (lowerStr "tpx") = mkRat 4 7 ∧
    similarity_score (lowerStr "temp") (lowerStr "tpx") ≤ mkRat 3 5 ∧
    scoreSensor STORAGE_TEMP ⟨"tpx", "Temperature", "id0"⟩ =
      some ⟨⟨"tpx", "Temperature", "id0"⟩, mkRat 4 7, "temp", false, "tpx"⟩ := by
  refine ⟨by decide, by decide, by decide, by decide⟩

/-- C1 amended: for a non-substring term whose similarity ratio is at most
0.6, the term's contributed score is exactly that ratio with no priority flag
(the `> 0.6` threshold gates only the `+0.1` priority bonus, not acceptance);
candidates are retained exactly when the best score over all terms exceeds
0.3, so such a term can yield the retained candidate whenever its ratio lies
above 0.3 and is maximal among the profile's terms. -/
theorem c1_amended :
    (∀ (pt : List String) (name term : String),
        substrB (lowerStr term) name = false →
        similarity_score (lowerStr term) name ≤ mkRat 3 5 →
        termEval pt name term = (similarity_score (lowerStr term) name, false)) ∧
    (∀ (p : Profile) (s : SensorNode) (c : Candidate),
        scoreSensor p s = some c → mkRat 3 10 < c.score) ∧
    (∀ (p : Profile) (s : SensorNode),
        lowerStr s.sensorType = lowerStr p.sensor_type →
        p.exclude_terms.any (fun e => substrB (lowerStr e) (lowerStr s.name)) = false →
        mkRat 3 10 < (termLoop p.priority_terms (lowerStr s.name) p.search_terms).1 →
        scoreSensor p s =
          some ⟨s, (termLoop p.priority_terms (lowerStr s.name) p.search_terms).1,
            (termLoop p.priority_terms (lowerStr s.name) p.search_terms).2.1,
            (termLoop p.priority_terms (lowerStr s.name) p.search_terms).2.2,
            s.name⟩) := by
  refine ⟨?_, ?_, ?_⟩
  · intro pt name term hsub hle
    unfold termEval
    rw [if_neg (by simp [hsub])]
    rw [if_neg (not_lt.mpr hle)]
  · intro p s c h
    exact (scoreSensor_inv h).2.2.2.2
  · intro p s hty hex hgt
    simp only [scoreSensor]
    rw [if_neg (by simp [hty]), if_neg (by simp [hex]), if_pos hgt]

set_option maxRecDepth 10000 in
/-- Witness for C1 amended, at the counterexample's inputs: the non-substring
term `temp` against the name `tpx` contributes exactly its ratio without the
priority flag, and the `STORAGE_TEMP` term loop on `tpx` scores above 0.3 so
the sensor is retained with the loop's results. -/
theorem c1_amended_witness :
    termEval [] "tpx" "temp" = (similarity_score (lowerStr "temp") "tpx", false) ∧
    scoreSensor STORAGE_TEMP ⟨"tpx", "Temperature", "id0"⟩ =
      some ⟨⟨"tpx", "Temperature", "id0"⟩,
        (termLoop [] (lowerStr "tpx") ["temperature", "temperatur", "temp"]).1,
        (termLoop [] (lowerStr "tpx") ["temperature", "temperatur", "temp"]).2.1,
        (termLoop [] (lowerStr "tpx") ["temperature", "temperatur", "temp"]).2.2,
        "tpx"⟩ :=
  ⟨c1_amended.1 [] "tpx" "temp" (by decide) (by decide),
   c1_amended.2.2 STORAGE_TEMP ⟨"tpx", "Temperature", "id0"⟩ (by decide) (by decide)
      (by decide)⟩

/-- Characters with equal code points are equal. -/
theorem charToNat_inj {a b : Char} (h : a.toNat = b.toNat) : a = b :=
  Char.ext (UInt32.ext h)

/-- The code-point lexicographic comparison is total. -/
theorem lexLeB_total : ∀ a b : List Char, lexLeB a b = true ∨ lexLeB b a = true := by
  intro a
  induction a with
  | nil => intro b; left; rfl
  | cons x xs ih =>
    intro b
    cases b with
    | nil => right; rfl
    | cons y ys =>
      rcases Nat.lt_trichotomy x.toNat y.toNat with h | h | h
      · left; simp [lexLeB, h]
      · rcases ih ys with h2 | h2
        · left; simp [lexLeB, h, h2]
        · right; simp [lexLeB, h, h2]
      · right; simp [lexLeB, h]

/-- The code-point lexicographic comparison is transitive. -/
theorem lexLeB_trans : ∀ a b c : List Char,
    lexLeB a b = true → lexLeB b c = true → lexLeB a c = true := by
  intro a
  induction a with
  | nil => intro b c _ _; rfl
  | cons x xs ih =>
    intro b c hab hbc
    cases b with
    | nil => simp [lexLeB] at hab
    | cons y ys =>
      cases c with
      | nil => simp [lexLeB] at hbc
      | cons z zs =>
        rcases Nat.lt_trichotomy x.toNat y.toNat with h1 | h1 | h1 <;>
          rcases Nat.lt_trichotomy y.toNat z.toNat with h2 | h2 | h2
        · simp [lexLeB, Nat.lt_trans h1 h2]
        · simp [lexLeB, h2 ▸ h1]
        · simp [lexLeB, h1, Nat.lt_asymm h1, h2, Nat.lt_asymm h2] at hab hbc ⊢
        · simp [lexLeB, h1 ▸ h2]
        · have hxz : x.toNat = z.toNat := h1.trans h2
          simp [lexLeB, h1, h2, hxz, Nat.lt_irrefl] at hab hbc ⊢
          exact ih ys zs hab hbc
        · simp [lexLeB, h1, Nat.lt_irrefl, h2, Nat.lt_asymm h2] at hab hbc ⊢
        · simp [lexLeB, h1, Nat.lt_asymm h1] at hab
        · simp [lexLeB, h1, Nat.lt_asymm h1] at hab
        · simp [lexLeB, h1, Nat.lt_asymm h1] at hab

/-- The code-point lexicographic comparison is antisymmetric. -/
theorem lexLeB_antisymm : ∀ a b : List Char,
    lexLeB a b = true → lexLeB b a = true → a = b := by
  intro a
  induction a with
  | nil =>
    intro b _ h2
    cases b with
    | nil => rfl
    | cons y ys => simp [lexLeB] at h2
  | cons x xs ih =>
    intro b h1 h2
    cases b with
    | nil => simp [lexLeB] at h1
    | cons y ys =>
      rcases Nat.lt_trichotomy x.toNat y.toNat with h | h | h
      · simp [lexLeB, h, Nat.lt_asymm h] at h2
      · have hxy : x = y := charToNat_inj h
        subst hxy
        simp [lexLeB, Nat.lt_irrefl] at h1 h2
        rw [ih ys h1 h2]
      · simp [lexLeB, h, Nat.lt_asymm h] at h1

/-- String comparison facts lifted from the character-list lemmas. -/
theorem strLeB_total (a b : String) : strLeB a b = true ∨ strLeB b a = true :=
  lexLeB_total a.toList b.toList

/-- Transitivity of the string comparison. -/
theorem strLeB_trans {a b c : String} (h1 : strLeB a b = true) (h2 : strLeB b c = true) :
    strLeB a c = true :=
  lexLeB_trans a.toList b.toList c.toList h1 h2

/-- Antisymmetry of the string comparison. -/
theorem strLeB_antisymm {a b : String} (h1 : strLeB a b = true) (h2 : strLeB b a = true) :
    a = b := by
  have h := lexLeB_antisymm a.toList b.toList h1 h2
  cases a; cases b
  simpa [String.toList] using congrArg String.mk h

/-- Sorted insertion is a permutation of consing. -/
theorem insertSorted_perm (s : String) : ∀ l : List String,
    List.Perm (insertSorted s l) (s :: l) := by
  intro l
  induction l with
  | nil => exact List.Perm.refl _
  | cons t ts ih =>
    simp only [insertSorted]
    split
    · exact List.Perm.refl _
    · exact (List.Perm.cons t ih).trans (List.Perm.swap s t ts)

/-- The insertion sort permutes its input. -/
theorem sortStrings_perm : ∀ l : List String, List.Perm (sortStrings l) l := by
  intro l
  induction l with
  | nil => exact List.Perm.refl _
  | cons s ss ih =>
    exact (insertSorted_perm s (sortStrings ss)).trans (List.Perm.cons s ih)

/-- Sorted insertion preserves sortedness. -/
theorem insertSorted_pairwise (s : String) : ∀ l : List String,
    l.Pairwise (fun a b => strLeB a b = true) →
    (insertSorted s l).Pairwise (fun a b => strLeB a b = true) := by
  intro l
  induction l with
  | nil => intro _; simp [insertSorted]
  | cons t ts ih =>
    intro hp
    rw [List.pairwise_cons] at hp
    obtain ⟨ht, hts⟩ := hp
    simp only [insertSorted]
    split
    · next hst =>
      rw [List.pairwise_cons]
      refine ⟨?_, List.pairwise_cons.mpr ⟨ht, hts⟩⟩
      intro u hu
      rcases List.mem_cons.mp hu with rfl | hu2
      · exact hst
      · exact strLeB_trans hst (ht u hu2)
    · next hst =>
      rw [List.pairwise_cons]
      refine ⟨?_, ih hts⟩
      intro u hu
      have hu3 : u ∈ s :: ts := (insertSorted_perm s ts).mem_iff.mp hu
      rcases List.mem_cons.mp hu3 with heq | hu2
      · subst heq
        rcases strLeB_total u t with h | h
        · exact absurd h hst
        · exact h
      · exact ht u hu2

/-- The insertion sort sorts. -/
theorem sortStrings_pairwise : ∀ l : List String,
    (sortStrings l).Pairwise (fun a b => strLeB a b = true) := by
  intro l
  induction l with
  | nil => simp [sortStrings]
  | cons s ss ih => exact insertSorted_pairwise s (sortStrings ss) ih

/-- Two permuted lists have the same sorted arrangement. -/
theorem sortStrings_eq_of_perm {l₁ l₂ : List String} (h : List.Perm l₁ l₂) :
    sortStrings l₁ = sortStrings l₂ := by
  haveI : IsAntisymm String (fun a b => strLeB a b = true) :=
    ⟨fun _ _ h1 h2 => strLeB_antisymm h1 h2⟩
  exact List.eq_of_perm_of_sorted
    ((sortStrings_perm l₁).trans (h.trans (sortStrings_perm l₂).symm))
    (sortStrings_pairwise l₁) (sortStrings_pairwise l₂)

/-- C8: the hardware fingerprint formats every top-level node as
`kind:name:id`, sorts the fragments lexicographically and joins them with
pipes, so permuting the nodes yields the identical fingerprint string; at the
Scenario E nodes the result is the concrete sorted string. -/
theorem c8_fingerprint_order_indep :
    (∀ l₁ l₂ : List TopHardware, List.Perm l₁ l₂ →
        createHardwareFingerprint l₁ = createHardwareFingerprint l₂) ∧
    createHardwareFingerprint [⟨"GPU", "RTX", "xyz"⟩, ⟨"CPU", "Ryzen", "abc"⟩] =
      "CPU:Ryzen:abc|GPU:RTX:xyz" := by
  constructor
  · intro l₁ l₂ hp
    unfold createHardwareFingerprint
    rw [sortStrings_eq_of_perm (hp.map fingerprintPart)]
  · decide

/-- Witness for C8: the two Scenario E enumerations, in either order, produce
the same fingerprint. -/
theorem c8_fingerprint_order_indep_witness :
    createHardwareFingerprint [⟨"CPU", "Ryzen", "abc"⟩, ⟨"GPU", "RTX", "xyz"⟩] =
      createHardwareFingerprint [⟨"GPU", "RTX", "xyz"⟩, ⟨"CPU", "Ryzen", "abc"⟩] :=
  c8_fingerprint_order_indep.1 _ _
    (List.Perm.swap (⟨"GPU", "RTX", "xyz"⟩ : TopHardware)
      (⟨"CPU", "Ryzen", "abc"⟩ : TopHardware) [])

/-- Per-call counter bookkeeping of `_safe_sensor_read`: every call bumps the
attempt counter by one; the success counter moves only for a non-skipped call
that delivers a value; the failure counter moves only for a non-skipped call
that raises. -/
theorem safeSensorRead_counters (st : MState) (k : String) (o : ReadOutcome) (now : ℚ) :
    (safeSensorRead st k o now).state.read_count = st.read_count + 1 ∧
    (safeSensorRead st k o now).state.successful =
      st.successful +
        (if isSkipped st.health k now = false ∧ isValue o = true then 1 else 0) ∧
    (safeSensorRead st k o now).state.failed =
      st.failed + (if isSkipped st.health k now = false ∧ o = .error then 1 else 0) := by
  cases hsk : isSkipped st.health k now <;> cases o <;>
    simp [safeSensorRead, trackKey, hsk, isValue]

/-- Over any run, the attempt counter advances by the number of calls, and
successes plus failures advance by the number of calls that were neither
skipped nor saw an absent value. -/
theorem runReads_counters : ∀ (es : List ReadEvent) (st : MState),
    (runReads st es).read_count = st.read_count + es.length ∧
    (runReads st es).successful + (runReads st es).failed + uncountedCalls st es =
      st.successful + st.failed + es.length := by
  intro es
  induction es with
  | nil => intro st; simp [runReads, uncountedCalls]
  | cons e es ih =>
    intro st
    simp only [runReads, uncountedCalls, List.length_cons]
    obtain ⟨h1, h2⟩ := ih (safeSensorRead st e.key e.outcome e.now).state
    obtain ⟨s1, s2, s3⟩ := safeSensorRead_counters st e.key e.outcome e.now
    have key :
        (if isSkipped st.health e.key e.now = false ∧ isValue e.outcome = true then 1
          else 0) +
          (if isSkipped st.health e.key e.now = false ∧ e.outcome = .error then 1
            else 0) +
          (if (isSkipped st.health e.key e.now || (e.outcome == .absent)) = true then 1
            else 0) = 1 := by
      cases hsk : isSkipped st.health e.key e.now <;> cases ho : e.outcome <;>
        simp [hsk, ho, isValue]
    constructor
    · omega
    · omega

/-- C10: every `_safe_sensor_read` call, including one skipped inside a
disabled window, increments the total attempt counter; the failed-read counter
moves only when the (non-skipped) read raises, not on an absent value and not
on a skip; the successful counter moves only for a delivered value.  Hence
after any run from a fresh manager, attempts equal successes plus failures
plus the skipped-or-absent calls — so attempts are at least successes plus
failures, strictly greater exactly when some call was skipped or saw an absent
value — and the reported success rate divides by the attempt counter, whose
count includes the skipped and absent-value reads. -/
theorem c10_counter_invariants :
    (∀ (st : MState) (k : String) (o : ReadOutcome) (now : ℚ),
        (safeSensorRead st k o now).state.read_count = st.read_count + 1) ∧
    (∀ (st : MState) (k : String) (o : ReadOutcome) (now : ℚ),
        (safeSensorRead st k o now).state.failed =
          st.failed +
            (if isSkipped st.health k now = false ∧ o = .error then 1 else 0)) ∧
    (∀ (st : MState) (k : String) (o : ReadOutcome) (now : ℚ),
        (safeSensorRead st k o now).state.successful =
          st.successful +
            (if isSkipped st.health k now = false ∧ isValue o = true then 1 else 0)) ∧
    (∀ es : List ReadEvent,
        (runReads initialMState es).read_count =
          (runReads initialMState es).successful + (runReads initialMState es).failed +
            uncountedCalls initialMState es ∧
        (runReads initialMState es).successful + (runReads initialMState es).failed ≤
          (runReads initialMState es).read_count) ∧
    (∀ st : MState,
        getSensorHealthReport st =
          ⟨st.read_count, st.successful, st.failed,
            if 0 < st.read_count then (st.successful : ℚ) / st.read_count * 100
            else 100⟩) := by
  refine ⟨?_, ?_, ?_, ?_, fun _ => rfl⟩
  · intro st k o now
    exact (safeSensorRead_counters st k o now).1
  · intro st k o now
    exact (safeSensorRead_counters st k o now).2.2
  · intro st k o now
    exact (safeSensorRead_counters st k o now).2.1
  · intro es
    obtain ⟨h1, h2⟩ := runReads_counters es initialMState
    constructor
    · simp only [initialMState] at h1 h2 ⊢
      omega
    · simp only [initialMState] at h1 h2 ⊢
      omega

/-- Transitivity of the strict ranking-key comparison. -/
theorem keyLTb_trans {x y z : Bool × ℚ} (h1 : keyLTb x y = true)
    (h2 : keyLTb y z = true) : keyLTb x z = true := by
  obtain ⟨xb, xq⟩ := x
  obtain ⟨yb, yq⟩ := y
  obtain ⟨zb, zq⟩ := z
  cases xb <;> cases yb <;> cases zb <;> simp [keyLTb] at h1 h2 ⊢ <;> linarith

/-- If `x` does not rank strictly below `y` but ranks strictly below `z`, then
`y` ranks strictly below `z` (totality of the underlying order). -/
theorem keyLTb_of_not_of_lt {x y z : Bool × ℚ} (h1 : keyLTb x y = false)
    (h2 : keyLTb x z = true) : keyLTb y z = true := by
  obtain ⟨xb, xq⟩ := x
  obtain ⟨yb, yq⟩ := y
  obtain ⟨zb, zq⟩ := z
  cases xb <;> cases yb <;> cases zb <;> simp [keyLTb, not_lt] at h1 h2 ⊢ <;> linarith

/-- The fold of `pickStep` returns the first element of maximal ranking key:
every element before it ranks strictly below it, and no element after it ranks
strictly above it. -/
theorem pickStep_foldl_spec : ∀ (l : List Candidate) (init : Candidate),
    ∃ l₁ l₂,
      init :: l = l₁ ++ (l.foldl pickStep init) :: l₂ ∧
      (∀ d ∈ l₁, keyLTb (candKey d) (candKey (l.foldl pickStep init)) = true) ∧
      (∀ d ∈ l₂, keyLTb (candKey (l.foldl pickStep init)) (candKey d) = false) := by
  intro l
  induction l with
  | nil =>
    intro init
    exact ⟨[], [], rfl, by simp, by simp⟩
  | cons d t ih =>
    intro init
    by_cases hk : keyLTb (candKey init) (candKey d) = true
    · have hstep : (d :: t).foldl pickStep init = t.foldl pickStep d := by
        simp [pickStep, hk]
      rw [hstep]
      obtain ⟨l₁, l₂, hsplit, hlt, hge⟩ := ih d
      refine ⟨init :: l₁, l₂, ?_, ?_, hge⟩
      · rw [List.cons_append, ← hsplit]
      · intro x hx
        rcases List.mem_cons.mp hx with heq | hx2
        · subst heq
          cases l₁ with
          | nil =>
            simp only [List.nil_append, List.cons.injEq] at hsplit
            rw [← hsplit.1]
            exact hk
          | cons a as =>
            simp only [List.cons_append, List.cons.injEq] at hsplit
            obtain ⟨had, -⟩ := hsplit
            subst had
            exact keyLTb_trans hk (hlt d (List.mem_cons_self d as))
        · exact hlt x hx2
    · have hk2 : keyLTb (candKey init) (candKey d) = false := by
        simpa using hk
      have hstep : (d :: t).foldl pickStep init = t.foldl pickStep init := by
        simp [pickStep, hk2]
      rw [hstep]
      obtain ⟨l₁, l₂, hsplit, hlt, hge⟩ := ih init
      cases l₁ with
      | nil =>
        simp only [List.nil_append, List.cons.injEq] at hsplit
        obtain ⟨hr, hl2⟩ := hsplit
        refine ⟨[], d :: t, by rw [List.nil_append, ← hr], by simp, ?_⟩
        intro x hx
        rcases List.mem_cons.mp hx with heq | hx2
        · subst heq
          rw [← hr]
          exact hk2
        · exact hge x (hl2 ▸ hx2)
      | cons a as =>
        simp only [List.cons_append, List.cons.injEq] at hsplit
        obtain ⟨had, htail⟩ := hsplit
        subst had
        refine ⟨init :: d :: as, l₂, ?_, ?_, hge⟩
        · rw [List.cons_append, List.cons_append, ← htail]
        · intro x hx
          have hinit : keyLTb (candKey init) (candKey (t.foldl pickStep init)) = true :=
            hlt init (List.mem_cons_self init as)
          rcases List.mem_cons.mp hx with heq | hx2
          · subst heq
            exact hinit
          · rcases List.mem_cons.mp hx2 with heq2 | hx3
            · subst heq2
              exact keyLTb_of_not_of_lt hk2 hinit
            · exact hlt x (List.mem_cons_of_mem init hx3)

/-- Ranking inversion for `pickBest`: the returned candidate is an element of
the list, every earlier candidate ranks strictly below it, and no candidate at
all ranks strictly above it — the first-seen element of maximal
`(is_priority, score)` key. -/
theorem pickBest_first_max (cs : List Candidate) (c : Candidate)
    (h : pickBest cs = some c) :
    ∃ l₁ l₂, cs = l₁ ++ c :: l₂ ∧
      (∀ d ∈ l₁, keyLTb (candKey d) (candKey c) = true) ∧
      (∀ d ∈ l₂, keyLTb (candKey c) (candKey d) = false) := by
  cases cs with
  | nil => simp [pickBest] at h
  | cons d t =>
    have hc : t.foldl pickStep d = c := by
      simpa [pickBest] using h
    obtain ⟨l₁, l₂, hsplit, hlt, hge⟩ := pickStep_foldl_spec t d
    rw [hc] at hsplit hlt hge
    exact ⟨l₁, l₂, hsplit, hlt, hge⟩

/-- The fold of `termStep` either leaves the starting best score and matched
term alone (every term scoring no higher than the start) or lands on the first
term of maximal score: every earlier term scores strictly below it, every
later term scores no higher, and an equal-scoring later term never displaces
it. -/
theorem termStep_foldl_spec (pt : List String) (name : String) :
    ∀ (terms : List String) (acc : ℚ × String × Bool),
      ((terms.foldl (termStep pt name) acc).1 = acc.1 ∧
        (terms.foldl (termStep pt name) acc).2.1 = acc.2.1 ∧
        ∀ t ∈ terms, (termEval pt name t).1 ≤ acc.1) ∨
      (∃ l₁ l₂,
        terms = l₁ ++ (terms.foldl (termStep pt name) acc).2.1 :: l₂ ∧
        (termEval pt name (terms.foldl (termStep pt name) acc).2.1).1 =
          (terms.foldl (termStep pt name) acc).1 ∧
        acc.1 < (terms.foldl (termStep pt name) acc).1 ∧
        (∀ t ∈ l₁, (termEval pt name t).1 < (terms.foldl (termStep pt name) acc).1) ∧
        (∀ t ∈ l₂, (termEval pt name t).1 ≤ (terms.foldl (termStep pt name) acc).1)) := by
  intro terms
  induction terms with
  | nil =>
    intro acc
    left
    exact ⟨rfl, rfl, by simp⟩
  | cons t ts ih =>
    intro acc
    by_cases hlt : acc.1 < (termEval pt name t).1
    · have hstep : (t :: ts).foldl (termStep pt name) acc =
          ts.foldl (termStep pt name)
            ((termEval pt name t).1, t, acc.2.2 || (termEval pt name t).2) := by
        simp [termStep, hlt]
      rw [hstep]
      rcases ih ((termEval pt name t).1, t, acc.2.2 || (termEval pt name t).2) with
        ⟨h1, h2, h3⟩ | ⟨l₁, l₂, hsp, hev, hgt, hl1, hl2⟩
      · right
        refine ⟨[], ts, ?_, ?_, ?_, by simp, ?_⟩
        · rw [List.nil_append, h2]
        · rw [h2, h1]
        · rw [h1]
          exact hlt
        · intro u hu
          rw [h1]
          exact h3 u hu
      · right
        refine ⟨t :: l₁, l₂, ?_, hev, ?_, ?_, hl2⟩
        · rw [List.cons_append, ← hsp]
        · exact hlt.trans hgt
        · intro u hu
          rcases List.mem_cons.mp hu with heq | hu2
          · subst heq
            exact hgt
          · exact hl1 u hu2
    · have hstep : (t :: ts).foldl (termStep pt name) acc =
          ts.foldl (termStep pt name)
            (acc.1, acc.2.1, acc.2.2 || (termEval pt name t).2) := by
        simp [termStep, hlt]
      rw [hstep]
      rcases ih (acc.1, acc.2.1, acc.2.2 || (termEval pt name t).2) with
        ⟨h1, h2, h3⟩ | ⟨l₁, l₂, hsp, hev, hgt, hl1, hl2⟩
      · left
        refine ⟨h1, h2, ?_⟩
        intro u hu
        rcases List.mem_cons.mp hu with heq | hu2
        · subst heq
          exact not_lt.mp hlt
        · exact h3 u hu2
      · right
        refine ⟨t :: l₁, l₂, ?_, hev, hgt, ?_, hl2⟩
        · rw [List.cons_append, ← hsp]
        · intro u hu
          rcases List.mem_cons.mp hu with heq | hu2
          · subst heq
            exact lt_of_le_of_lt (not_lt.mp hlt) hgt
          · exact hl1 u hu2

/-- C5: deterministic ranking and tie-breaking of `find_sensor`.  The function
is the composition of the candidate collection with `pickBest`; `pickBest`
returns the first candidate in encounter order of maximal
`(is_priority, score)` key (everything earlier ranks strictly below it, and
nothing — in particular no equal-keyed later candidate — ranks strictly above
it), which is Python's stable descending sort followed by indexing the head;
and inside one sensor's term loop, whenever a positive best score is reached,
the matched term is the first term in `search_terms` order attaining it: all
earlier terms score strictly less and no later term scores more, so an
equal-scoring later term never displaces it.  As a pure function of the
hardware snapshot and the profile, the result is the same on every run. -/
theorem c5_deterministic_ranking :
    (∀ (p : Profile) (fuel : Nat) (root : HNode),
        findSensor p fuel root =
          (pickBest (collectCandidates p fuel root)).map (fun c => c.sensor)) ∧
    (∀ (cs : List Candidate) (c : Candidate), pickBest cs = some c →
        ∃ l₁ l₂, cs = l₁ ++ c :: l₂ ∧
          (∀ d ∈ l₁, keyLTb (candKey d) (candKey c) = true) ∧
          (∀ d ∈ l₂, keyLTb (candKey c) (candKey d) = false)) ∧
    (∀ (pt : List String) (name : String) (terms : List String),
        0 < (termLoop pt name terms).1 →
        ∃ l₁ l₂, terms = l₁ ++ (termLoop pt name terms).2.1 :: l₂ ∧
          (termEval pt name (termLoop pt name terms).2.1).1 =
            (termLoop pt name terms).1 ∧
          (∀ t ∈ l₁, (termEval pt name t).1 < (termLoop pt name terms).1) ∧
          (∀ t ∈ l₂, (termEval pt name t).1 ≤ (termLoop pt name terms).1)) := by
  refine ⟨fun _ _ _ => rfl, pickBest_first_max, ?_⟩
  intro pt name terms hpos
  rcases termStep_foldl_spec pt name terms (0, "", false) with ⟨h1, -, -⟩ |
    ⟨l₁, l₂, hsp, hev, -, hl1, hl2⟩
  · rw [termLoop] at hpos
    rw [h1] at hpos
    exact absurd hpos (by norm_num)
  · exact ⟨l₁, l₂, hsp, hev, hl1, hl2⟩

set_option maxRecDepth 10000 in
/-- Witness for C5 at concrete inputs: on a one-element candidate list
`pickBest` returns that element with the first-maximal decomposition, and the
`STORAGE_TEMP` term loop over the name `tpx` (best score 4/7 from the term
`temp`) decomposes with `temp` as the first maximal term. -/
theorem c5_deterministic_ranking_witness :
    (∃ l₁ l₂,
        [(⟨⟨"a", "t", "i"⟩, 1, "x", false, "a"⟩ : Candidate)] =
          l₁ ++ (⟨⟨"a", "t", "i"⟩, 1, "x", false, "a"⟩ : Candidate) :: l₂ ∧
        (∀ d ∈ l₁,
          keyLTb (candKey d)
            (candKey ⟨⟨"a", "t", "i"⟩, 1, "x", false, "a"⟩) = true) ∧
        (∀ d ∈ l₂,
          keyLTb (candKey ⟨⟨"a", "t", "i"⟩, 1, "x", false, "a"⟩)
            (candKey d) = false)) ∧
    (∃ l₁ l₂,
        ["temperature", "temperatur", "temp"] =
          l₁ ++ (termLoop [] "tpx" ["temperature", "temperatur", "temp"]).2.1 :: l₂ ∧
        (termEval [] "tpx"
            (termLoop [] "tpx" ["temperature", "temperatur", "temp"]).2.1).1 =
          (termLoop [] "tpx" ["temperature", "temperatur", "temp"]).1 ∧
        (∀ t ∈ l₁,
          (termEval [] "tpx" t).1 <
            (termLoop [] "tpx" ["temperature", "temperatur", "temp"]).1) ∧
        (∀ t ∈ l₂,
          (termEval [] "tpx" t).1 ≤
            (termLoop [] "tpx" ["temperature", "temperatur", "temp"]).1)) :=
  ⟨c5_deterministic_ranking.2.1 [⟨⟨"a", "t", "i"⟩, 1, "x", false, "a"⟩]
      ⟨⟨"a", "t", "i"⟩, 1, "x", false, "a"⟩ rfl,
   c5_deterministic_ranking.2.2 [] "tpx" ["temperature", "temperatur", "temp"]
      (by decide)⟩
